import Mathlib

/-!
Shallow embedding of the course-candidate construction and scoring pipeline of
`src/osm_backend.py` (repository SeoulRun), together with proofs settling the
frozen claims about it.

Modelling conventions:
* Python floats are modelled as real numbers (`ℝ`); Python ints as `ℤ`/`ℕ`.
* `round(x, n)` (Python 3 banker's rounding, half-to-even) is modelled by
  `pyRound`.
* The process-wide mutable threshold `_OFFICIAL_MATCH_THRESHOLD_M` is modelled
  by explicit state passing: functions that read the global take the current
  threshold value `th : ℝ` as an argument, and the setter is modelled as the
  function computing the new value of the global from its argument.
* Network I/O (`fetch_trails_relations`) is modelled by taking the fetched
  relation list as an input; file I/O (`Path.exists`, `rglob`) is modelled by a
  `GpxDir` value holding the directory-walk result.
* XML documents read by `_parse_gpx_bounds_and_endpoints` are modelled
  structurally: an attribute that is absent, or whose `float(...)` conversion
  would raise, is `none`; a file on which `ET.parse` raises has `doc = none`.
-/

/-- Python `str.strip()` (called with no arguments): drop leading and trailing
whitespace.  `String.trim` is avoided because its implementation does not
reduce in the kernel; this list-based version does. -/
def pyStrip (s : String) : String :=
  String.mk (((s.toList.dropWhile Char.isWhitespace).reverse.dropWhile
    Char.isWhitespace).reverse)

/-- Python `str.strip(" →")` as used for the GPX display name: drop leading
and trailing characters belonging to the two-character set space / arrow. -/
def _strip_name_edges (s : String) : String :=
  String.mk (((s.toList.dropWhile fun c => c == ' ' || c == '→').reverse.dropWhile
    fun c => c == ' ' || c == '→').reverse)

/-- Round a real to the nearest integer, ties to even: the rounding mode of
Python 3's built-in `round`. -/
noncomputable def pyRoundInt (x : ℝ) : ℤ :=
  if Int.fract x < 1 / 2 then ⌊x⌋
  else if 1 / 2 < Int.fract x then ⌊x⌋ + 1
  else if Even ⌊x⌋ then ⌊x⌋ else ⌊x⌋ + 1

/-- Python `round(x, n)` for `n ≥ 0` digits, on the real-number model of
floats. -/
noncomputable def pyRound (x : ℝ) (n : ℕ) : ℝ :=
  (pyRoundInt (x * 10 ^ n) : ℝ) / 10 ^ n

/-- `bbox_from_center` (src/osm_backend.py:39-44): a single half-width
`d = radius_km / 111.0` is used for both axes; the box is
`(lat - d, lon - d, lat + d, lon + d)` in `(south, west, north, east)` order. -/
noncomputable def bbox_from_center (lat lon radius_km : ℝ) : ℝ × ℝ × ℝ × ℝ :=
  let d := radius_km / 111
  (lat - d, lon - d, lat + d, lon + d)

/-- Modelled from the spec (claim C1 / spec §4.1), for comparison with the
code: latitude delta `radius_km / 111.0`, longitude delta
`radius_km / (111.0 * max(0.2, cos(lat_in_radians)))`. -/
noncomputable def bbox_from_center_claimed (lat lon radius_km : ℝ) : ℝ × ℝ × ℝ × ℝ :=
  let d_lat := radius_km / 111
  let d_lon := radius_km / (111 * max 0.2 (Real.cos (lat * Real.pi / 180)))
  (lat - d_lat, lon - d_lon, lat + d_lat, lon + d_lon)

/-- `haversine_m` (src/osm_backend.py:47-55): great-circle distance in meters,
Earth radius 6,371,000 m. -/
noncomputable def haversine_m (lat1 lon1 lat2 lon2 : ℝ) : ℝ :=
  let R : ℝ := 6371000
  let p := Real.pi / 180
  let dlat := (lat2 - lat1) * p
  let dlon := (lon2 - lon1) * p
  let a := Real.sin (dlat / 2) ^ 2 +
    Real.cos (lat1 * p) * Real.cos (lat2 * p) * Real.sin (dlon / 2) ^ 2
  2 * R * Real.arcsin (Real.sqrt a)

/-- `polyline_length_km` (src/osm_backend.py:58-66): sum of consecutive
haversine distances, in kilometers; `0` for fewer than 2 points. -/
noncomputable def polyline_length_km (latlon : List (ℝ × ℝ)) : ℝ :=
  if latlon.length < 2 then 0
  else ((latlon.zip latlon.tail).foldl
    (fun acc pq => acc + haversine_m pq.1.1 pq.1.2 pq.2.1 pq.2.2) 0) / 1000

/-- `_bbox_intersects` (src/osm_backend.py:169-176) on `(south, west, north,
east)` boxes. -/
def _bbox_intersects (b1 b2 : ℝ × ℝ × ℝ × ℝ) : Prop :=
  ¬ (b1.2.2.2 < b2.2.1 ∨ b2.2.2.2 < b1.2.1 ∨ b1.2.2.1 < b2.1 ∨ b2.2.2.1 < b1.1)

noncomputable instance (b1 b2 : ℝ × ℝ × ℝ × ℝ) : Decidable (_bbox_intersects b1 b2) := by
  unfold _bbox_intersects; infer_instance

/-- Initial value of the module-level global `_OFFICIAL_MATCH_THRESHOLD_M`
(src/osm_backend.py:30). -/
def _OFFICIAL_MATCH_THRESHOLD_M : ℤ := 250

/-- `set_official_match_threshold` (src/osm_backend.py:33-35), modelled as the
function from the setter's argument to the new value of the global:
`max(10, int(threshold_m))`.  The parameter is annotated `int` in the source,
so `int(threshold_m)` is the identity on it. -/
def set_official_match_threshold (threshold_m : ℤ) : ℤ :=
  max 10 threshold_m

/-- `_safe_get` (src/osm_backend.py:69-71) applied to a tag lookup: the looked
up value (`none` when the key is absent), stripped; `""` when absent. -/
def _safe_get (v : Option String) : String :=
  match v with
  | some s => pyStrip s
  | none => ""

/-- `_difficulty_from_sac` (src/osm_backend.py:74-87): three-tier mapping from
a `sac_scale` technical-grade hint; `""` for an unrecognized hint. -/
def _difficulty_from_sac (sac : String) : String :=
  let s := pyStrip sac
  if s = "hiking" then "쉬움"
  else if s = "mountain_hiking" then "보통"
  else if s ∈ ["demanding_mountain_hiking", "alpine_hiking",
      "demanding_alpine_hiking", "difficult_alpine_hiking"] then "어려움"
  else ""

/-- `difficulty_label` (src/osm_backend.py:90-98): a recognized hint decides
the tier; otherwise length thresholds `< 5` / `< 10` decide. -/
noncomputable def difficulty_label (sac_hint : String) (distance_km : ℝ) : String :=
  let d := _difficulty_from_sac sac_hint
  if d ≠ "" then d
  else if distance_km < 5 then "쉬움"
  else if distance_km < 10 then "보통"
  else "어려움"

/-- Modelled from the spec (claim C5), for comparison with the code: the
claim's hint tier table.  `none` when the hint maps to no known tier. -/
def claimedTier (hint : String) : Option String :=
  if hint = "hiking" then some "쉬움"
  else if hint = "mountain_hiking" then some "보통"
  else if hint ∈ ["demanding_mountain_hiking", "alpine_hiking",
      "demanding_alpine_hiking", "difficult_alpine_hiking"] then some "어려움"
  else none

/-- Modelled from the spec (claim C5): if the hint maps to a known tier use
it, ignoring length; otherwise below 5 km easy, 5 to 10 km moderate, 10 km and
above hard (reading the claim's three length ranges as the partition
`[0,5)` / `[5,10)` / `[10,∞)`). -/
noncomputable def difficulty_label_claimed (hint : String) (d : ℝ) : String :=
  match claimedTier hint with
  | some t => t
  | none => if d < 5 then "쉬움" else if d < 10 then "보통" else "어려움"

/-- The `<bounds>` element inside GPX `<metadata>`: each attribute is `none`
when absent or when `float(...)` on it would raise. -/
structure GpxBounds where
  minlat : Option ℝ
  minlon : Option ℝ
  maxlat : Option ℝ
  maxlon : Option ℝ

/-- The GPX `<metadata>` element. -/
structure GpxMetadata where
  bounds : Option GpxBounds

/-- A GPX `<trkpt>`: `lat` / `lon` attribute values, `none` when the attribute
is absent or unparseable. -/
structure GpxTrkpt where
  lat : Option ℝ
  lon : Option ℝ

/-- A GPX `<trkseg>` with its ordered track points. -/
structure GpxTrkseg where
  trkpts : List GpxTrkpt

/-- A GPX `<trk>`; `trkseg` is its first `<trkseg>` child (`find`), `none`
when there is none. -/
structure GpxTrk where
  trkseg : Option GpxTrkseg

/-- A GPX `<wpt>`; `nameText` is `findtext("g:name", default="")`. -/
structure GpxWpt where
  nameText : String

/-- A parsed GPX document root: first `<metadata>`, first `<trk>`, and all
`<wpt>` elements. -/
structure GpxDoc where
  metadata : Option GpxMetadata
  trk : Option GpxTrk
  wpts : List GpxWpt

/-- One file found by the directory scan: `stem` and `path` of the file, and
its document (`none` when `ET.parse` raises). -/
structure GpxFile where
  stem : String
  path : String
  doc : Option GpxDoc

/-- The directory handed to `load_official_gpx_index`: whether it exists
(`Path.exists`) and the files returned by `rglob("*.gpx")`, in walk order. -/
structure GpxDir where
  present : Bool
  files : List GpxFile

/-- The record built per GPX file (the dict returned by
`_parse_gpx_bounds_and_endpoints`, src/osm_backend.py:230-238), also the
element type of the authoritative index. -/
structure OfficialRecord where
  name : String
  start_lat : ℝ
  start_lon : ℝ
  end_lat : ℝ
  end_lon : ℝ
  bbox : ℝ × ℝ × ℝ × ℝ
  path : String

/-- `_parse_gpx_bounds_and_endpoints` (src/osm_backend.py:179-238).  Control
flow follows the source exactly: unparseable file → `None`; missing
`metadata`/`bounds` → `None` (the `not b.attrib` early exit is behaviorally
subsumed by the subsequent `float(None)` failure, both yielding `None`);
missing/unparseable bounds attribute → `None`; missing `trk`/`trkseg` →
`None`; fewer than 2 track points → `None`; unparseable endpoint coordinate →
`None`.  The bounding box comes only from the metadata bounds, never from the
track points. -/
def _parse_gpx_bounds_and_endpoints (f : GpxFile) : Option OfficialRecord :=
  match f.doc with
  | none => none
  | some root =>
    match root.metadata with
    | none => none
    | some meta =>
      match meta.bounds with
      | none => none
      | some b =>
        match b.minlat, b.minlon, b.maxlat, b.maxlon with
        | some minlat, some minlon, some maxlat, some maxlon =>
          match root.trk with
          | none => none
          | some trk =>
            match trk.trkseg with
            | none => none
            | some seg =>
              if seg.trkpts.length < 2 then none
              else
                match seg.trkpts.head?, seg.trkpts.getLast? with
                | some p0, some pL =>
                  match p0.lat, p0.lon, pL.lat, pL.lon with
                  | some s_lat, some s_lon, some e_lat, some e_lon =>
                    let name :=
                      match root.wpts.head?, root.wpts.getLast? with
                      | some w1, some w2 =>
                        _strip_name_edges
                          (pyStrip w1.nameText ++ " → " ++ pyStrip w2.nameText)
                      | _, _ => f.stem
                    some { name := name, start_lat := s_lat, start_lon := s_lon,
                           end_lat := e_lat, end_lon := e_lon,
                           bbox := (minlat, minlon, maxlat, maxlon),
                           path := f.path }
                  | _, _, _, _ => none
                | _, _ => none
        | _, _, _, _ => none

/-- The scan loop of `load_official_gpx_index` (src/osm_backend.py:258-272):
walk `files` carrying the count `picked` of records kept so far; stop at
`max_files`; skip files whose parse fails; when a bbox filter is given, skip
records whose bounds do not intersect it. -/
noncomputable def loadGo (bbox : Option (ℝ × ℝ × ℝ × ℝ)) (max_files : ℕ) :
    List GpxFile → ℕ → List OfficialRecord
  | [], _ => []
  | f :: fs, picked =>
    if max_files ≤ picked then []
    else
      match _parse_gpx_bounds_and_endpoints f with
      | none => loadGo bbox max_files fs picked
      | some info =>
        match bbox with
        | some b =>
          if _bbox_intersects b info.bbox then
            info :: loadGo bbox max_files fs (picked + 1)
          else loadGo bbox max_files fs picked
        | none => info :: loadGo bbox max_files fs (picked + 1)

/-- `load_official_gpx_index` (src/osm_backend.py:241-274): empty result when
the directory does not exist, else the scan loop from count 0. -/
noncomputable def load_official_gpx_index (dir : GpxDir)
    (bbox : Option (ℝ × ℝ × ℝ × ℝ)) (max_files : ℕ) : List OfficialRecord :=
  if dir.present then loadGo bbox max_files dir.files 0 else []

/-- The dict returned by `match_official_by_endpoints`
(src/osm_backend.py:287-334). -/
structure MatchResult where
  matched : Bool
  trust_score : ℝ
  nearest_m : Option ℝ
  official_name : Option String

/-- Per-record candidate distance of the matcher loop
(src/osm_backend.py:305-313): minimum of the forward pairing
`(start↔official-start + end↔official-end)/2` and the reversed pairing
`(start↔official-end + end↔official-start)/2`. -/
noncomputable def recordNearest (s e : ℝ × ℝ) (r : OfficialRecord) : ℝ :=
  let d1 := (haversine_m s.1 s.2 r.start_lat r.start_lon +
    haversine_m e.1 e.2 r.end_lat r.end_lon) / 2
  let d2 := (haversine_m s.1 s.2 r.end_lat r.end_lon +
    haversine_m e.1 e.2 r.start_lat r.start_lon) / 2
  min d1 d2

/-- The matcher's scan loop (src/osm_backend.py:298-317): track the smallest
per-record distance seen so far (initialized `1e18`) and the name of the
record achieving it, updating on strict improvement. -/
noncomputable def scanGo (s e : ℝ × ℝ) :
    List OfficialRecord → ℝ × Option String → ℝ × Option String
  | [], st => st
  | r :: rs, st =>
    if recordNearest s e r < st.1 then scanGo s e rs (recordNearest s e r, some r.name)
    else scanGo s e rs st

/-- The global minimum endpoint distance found by the matcher's scan loop
(`best_nearest` at src/osm_backend.py:298-316). -/
noncomputable def bestNearestDist (s e : ℝ × ℝ) (idx : List OfficialRecord) : ℝ :=
  (scanGo s e idx ((1e18 : ℝ), none)).1

/-- `match_official_by_endpoints` (src/osm_backend.py:277-334).  The source
reads the threshold from the global `_OFFICIAL_MATCH_THRESHOLD_M` (line 319);
here its current value is the explicit argument `th`. -/
noncomputable def match_official_by_endpoints (s e : ℝ × ℝ)
    (official_index : List OfficialRecord) (th : ℝ) : MatchResult :=
  if official_index.isEmpty then
    { matched := false, trust_score := 0, nearest_m := none, official_name := none }
  else
    let best := (scanGo s e official_index ((1e18 : ℝ), none)).1
    let nm := (scanGo s e official_index ((1e18 : ℝ), none)).2
    if best ≤ th then
      { matched := true, trust_score := pyRound (5 + (th - best) / th * 25) 2,
        nearest_m := some (pyRound best 1), official_name := nm }
    else
      { matched := false, trust_score := 0,
        nearest_m := some (pyRound best 1), official_name := nm }

/-- A point of a member way's `geometry` array; a coordinate is `none` when
the corresponding key is absent from the point dict. -/
structure GeomPt where
  lat : Option ℝ
  lon : Option ℝ

/-- A relation member: a way reference with its resolved point geometry
(`m.get("geometry") or []` is modelled by reading `geometry` directly, with
`[]` standing for both an absent and an empty geometry). -/
structure Member where
  geometry : List GeomPt

/-- The tags of a relation that `relation_to_course` reads. -/
structure Tags where
  name : Option String
  sac_scale : Option String

/-- Tags of a relation carrying neither key (the `or` fallback for
`rel.get("tags")`). -/
def emptyTags : Tags := { name := none, sac_scale := none }

/-- A raw relation as returned by the spatial query: optional tags dict and
optional member list. -/
structure Relation where
  tags : Option Tags
  members : Option (List Member)

/-- The usable points of one member (src/osm_backend.py:354-358): geometry
entries having both `lat` and `lon`. -/
def memberPts (m : Member) : List (ℝ × ℝ) :=
  m.geometry.filterMap fun p =>
    match p.lat, p.lon with
    | some a, some b => some (a, b)
    | _, _ => none

/-- One step of the stitching loop (src/osm_backend.py:359-366): a member with
fewer than 2 usable points is ignored; otherwise its points are appended,
dropping the first point when it lies within 5 m of the accumulated
polyline's last point. -/
noncomputable def stitchStep (latlon pts : List (ℝ × ℝ)) : List (ℝ × ℝ) :=
  if 2 ≤ pts.length then
    match latlon.getLast?, pts with
    | some lastPt, p0 :: rest =>
      if haversine_m lastPt.1 lastPt.2 p0.1 p0.2 < 5 then latlon ++ rest
      else latlon ++ pts
    | _, _ => latlon ++ pts
  else latlon

/-- The polyline accumulated over all members (src/osm_backend.py:352-366). -/
noncomputable def stitchedLatlon (members : List Member) : List (ℝ × ℝ) :=
  members.foldl (fun acc m => stitchStep acc (memberPts m)) []

/-- The course dict built by `relation_to_course` (src/osm_backend.py:386-403).
The presentation-only field `course_id` (an f-string interpolating the float
distance into the name) is not modelled; every field consumed elsewhere in the
pipeline is. -/
structure Course where
  name : String
  distance_km : ℝ
  difficulty : String
  score : ℝ
  score_osm : ℝ
  trust_score : ℝ
  official_matched : Bool
  official_nearest_m : Option ℝ
  official_name : Option String
  coords : List (ℝ × ℝ)
  start_lat : ℝ
  start_lon : ℝ
  end_lat : ℝ
  end_lon : ℝ
  members : ℕ

/-- `relation_to_course` (src/osm_backend.py:338-403).  `th` is the current
value of the global threshold read inside `match_official_by_endpoints`. -/
noncomputable def relation_to_course (rel : Relation)
    (official_index : Option (List OfficialRecord)) (th : ℝ) : Option Course :=
  let tags := rel.tags.getD emptyTags
  let name := _safe_get tags.name
  if name = "" then none
  else
    let sac := _safe_get tags.sac_scale
    let members := rel.members.getD []
    let latlon := stitchedLatlon members
    if latlon.length < 2 then none
    else
      let dist_km := pyRound (polyline_length_km latlon) 2
      if dist_km < 1 ∨ 35 < dist_km then none
      else
        let diff := difficulty_label sac dist_km
        let start := latlon.head?.getD (0, 0)
        let last := latlon.getLast?.getD (0, 0)
        let score_osm := pyRound
          (Real.log (1 + (members.length : ℝ)) * 0.8 + Real.log (1 + dist_km) * 0.6) 3
        let m := match_official_by_endpoints start last (official_index.getD []) th
        let trust_score := m.trust_score
        let score_final := pyRound (score_osm + trust_score) 3
        some { name := name, distance_km := dist_km, difficulty := diff,
               score := score_final, score_osm := score_osm,
               trust_score := trust_score, official_matched := m.matched,
               official_nearest_m := m.nearest_m, official_name := m.official_name,
               coords := latlon, start_lat := start.1, start_lon := start.2,
               end_lat := last.1, end_lon := last.2, members := members.length }

/-- The Python sort key `(x["score"], x["distance_km"])`
(src/osm_backend.py:418). -/
def courseKey (c : Course) : ℝ × ℝ :=
  (c.score, c.distance_km)

/-- Lexicographic order on sort keys: Python tuple comparison `≤`. -/
def keyLe (a b : ℝ × ℝ) : Prop :=
  a.1 < b.1 ∨ (a.1 = b.1 ∧ a.2 ≤ b.2)

noncomputable instance (a b : ℝ × ℝ) : Decidable (keyLe a b) := by
  unfold keyLe; infer_instance

/-- The pointwise order "sorted no lower than": course `a` precedes course
`b` in descending `(score, distance_km)` order. -/
def courseGe (a b : Course) : Prop :=
  keyLe (courseKey b) (courseKey a)

/-- Insert a course into a descending-sorted list, before the first element
whose key is `≤` its own.  Elements inserted earlier in `sortDesc` come from
later list positions, so placing the new course before equal keys reproduces
the stability of Python's `list.sort(..., reverse=True)`. -/
noncomputable def insertDesc (c : Course) : List Course → List Course
  | [] => [c]
  | d :: ds => if keyLe (courseKey d) (courseKey c) then c :: d :: ds
    else d :: insertDesc c ds

/-- `courses.sort(key=lambda x: (x["score"], x["distance_km"]), reverse=True)`
(src/osm_backend.py:418): stable descending sort by `courseKey`, realized as
insertion sort (any stable sort by the same key computes the same list). -/
noncomputable def sortDesc : List Course → List Course
  | [] => []
  | c :: cs => insertDesc c (sortDesc cs)

/-- The deduplication pass (src/osm_backend.py:420-424): one left-to-right
walk inserting each course into a dict keyed by name, keeping the first
occurrence per name; `list(dedup.values())` preserves insertion order.
`seen` is the set of names already in the dict. -/
def dedupGo (seen : List String) : List Course → List Course
  | [] => []
  | c :: cs => if c.name ∈ seen then dedupGo seen cs
    else c :: dedupGo (c.name :: seen) cs

/-- Name deduplication of the full candidate list, starting from no seen
names. -/
def dedupByName (l : List Course) : List Course :=
  dedupGo [] l

/-- The per-relation course assembly inside `build_courses`
(src/osm_backend.py:412-416): convert each fetched relation, dropping the
rejected ones, preserving order. -/
noncomputable def assembleCourses (rels : List Relation)
    (official_index : Option (List OfficialRecord)) (th : ℝ) : List Course :=
  rels.filterMap fun r => relation_to_course r official_index th

/-- `build_courses` (src/osm_backend.py:406-424) downstream of the network
fetch: the fetched relation list is an input (the fetch itself is I/O), then
sort descending by `(score, distance_km)` and deduplicate by name keeping the
first occurrence. -/
noncomputable def build_courses (rels : List Relation)
    (official_index : Option (List OfficialRecord)) (th : ℝ) : List Course :=
  dedupByName (sortDesc (assembleCourses rels official_index th))

/-- Concrete GPX file for claim C2: parses, has two track points with numeric
coordinates, but carries no `<metadata>` (hence no embedded bounds). -/
noncomputable def gpxNoBounds : GpxFile :=
  { stem := "nobounds", path := "data/nobounds.gpx",
    doc := some
      { metadata := none,
        trk := some ⟨some ⟨[⟨some 37.5, some 127.0⟩, ⟨some 37.6, some 127.1⟩]⟩⟩,
        wpts := [] } }

/-- Concrete GPX file for claim C2's witness: fully well formed, with embedded
metadata bounds. -/
noncomputable def gpxGood : GpxFile :=
  { stem := "good", path := "data/good.gpx",
    doc := some
      { metadata := some ⟨some ⟨some 37.4, some 126.9, some 37.7, some 127.2⟩⟩,
        trk := some ⟨some ⟨[⟨some 37.5, some 127.0⟩, ⟨some 37.6, some 127.1⟩]⟩⟩,
        wpts := [] } }

/-- Concrete authoritative record for claim C3's witness. -/
noncomputable def recA : OfficialRecord :=
  { name := "북한산 둘레길", start_lat := 37.6, start_lon := 127.0,
    end_lat := 37.65, end_lon := 127.05, bbox := (37.5, 126.9, 37.7, 127.1),
    path := "data/a.gpx" }

/-- Concrete course for claim C4's witness: the lower-scoring of two courses
sharing the name "북한산 둘레길". -/
noncomputable def c4low : Course :=
  { name := "북한산 둘레길", distance_km := 2.0, difficulty := "쉬움",
    score := 1, score_osm := 1, trust_score := 0, official_matched := false,
    official_nearest_m := none, official_name := none, coords := [],
    start_lat := 37.6, start_lon := 127.0, end_lat := 37.61, end_lon := 127.01,
    members := 1 }

/-- Concrete course for claim C4's witness: the higher-scoring duplicate. -/
noncomputable def c4high : Course :=
  { name := "북한산 둘레길", distance_km := 8.4, difficulty := "보통",
    score := 2, score_osm := 2, trust_score := 0, official_matched := false,
    official_nearest_m := none, official_name := none, coords := [],
    start_lat := 37.6, start_lon := 127.0, end_lat := 37.7, end_lon := 127.1,
    members := 3 }

/-! ### Rounding lemmas -/

lemma pyRoundInt_intCast (k : ℤ) : pyRoundInt (k : ℝ) = k := by
  unfold pyRoundInt
  rw [Int.fract_intCast]
  norm_num [Int.floor_intCast]

lemma pyRound_idem (x : ℝ) (n : ℕ) : pyRound (pyRound x n) n = pyRound x n := by
  unfold pyRound
  rw [div_mul_cancel₀ _ (by positivity : ((10 : ℝ) ^ n) ≠ 0), pyRoundInt_intCast]

lemma pyRound_five : pyRound (5 : ℝ) 2 = 5 := by
  unfold pyRound
  rw [show (5 : ℝ) * 10 ^ 2 = ((500 : ℤ) : ℝ) by norm_num, pyRoundInt_intCast]
  norm_num

/-- C1, counterexample.  The claim asserts a cos-of-latitude correction on the
longitude delta; the code applies none.  At latitude 60° (center `(60, 0)`),
radius 111 km, the claim's east coordinate is
`0 + 111/(111·max(0.2, cos 60°)) = 2` degrees while the code computes
`0 + 111/111 = 1` degree: the code's box differs from the claimed box at this
concrete input. -/
theorem bbox_from_center_cx :
    (bbox_from_center 60 0 111).2.2.2 = 1 ∧
    (bbox_from_center_claimed 60 0 111).2.2.2 = 2 := by
  constructor
  · norm_num [bbox_from_center]
  · simp only [bbox_from_center_claimed]
    rw [show (60 : ℝ) * Real.pi / 180 = Real.pi / 3 by ring, Real.cos_pi_div_three,
      max_eq_right (by norm_num : (0.2 : ℝ) ≤ 1 / 2)]
    norm_num

/-- C1, amended.  `bbox_from_center(lat, lon, radius_km)` returns
`(lat - d, lon - d, lat + d, lon + d)` with the single half-width
`d = radius_km / 111.0` used for both axes: there is no cos-of-latitude
correction and no `max(0.2, ·)` floor, so the longitude delta always equals
the latitude delta (second conjunct: the east and north half-widths
coincide). -/
theorem bbox_from_center_uniform_delta :
    ∀ lat lon radius_km : ℝ,
      bbox_from_center lat lon radius_km =
        (lat - radius_km / 111, lon - radius_km / 111,
         lat + radius_km / 111, lon + radius_km / 111) ∧
      (bbox_from_center lat lon radius_km).2.2.2 - lon =
        (bbox_from_center lat lon radius_km).2.2.1 - lat := by
  intro lat lon radius_km
  exact ⟨rfl, by simp [bbox_from_center]⟩

/-- C10.  After `set_official_match_threshold(t)` the global threshold is
`max(10, int(t))`: it is always at least 10, a sub-10 (including zero or
negative) request is silently raised to 10, a request of at least 10 is
applied as given, and the initial value 250 also respects the lower bound. -/
theorem threshold_setter_clamps :
    ∀ t : ℤ,
      set_official_match_threshold t = max 10 t ∧
      10 ≤ set_official_match_threshold t ∧
      (t < 10 → set_official_match_threshold t = 10) ∧
      (10 ≤ t → set_official_match_threshold t = t) ∧
      10 ≤ _OFFICIAL_MATCH_THRESHOLD_M := by
  intro t
  unfold set_official_match_threshold _OFFICIAL_MATCH_THRESHOLD_M
  refine ⟨rfl, le_max_left _ _, fun h => ?_, fun h => ?_, by norm_num⟩
  · omega
  · omega

/-- C10, witness at `t = 3`: a request of 3 m is raised to 10 m. -/
theorem threshold_setter_clamps_witness :
    set_official_match_threshold 3 = 10 ∧ 10 ≤ set_official_match_threshold 3 :=
  ⟨(threshold_setter_clamps 3).2.2.1 (by norm_num), (threshold_setter_clamps 3).2.1⟩

/-- C5.  `difficulty_label` gives a recognized technical-grade hint strict
precedence over length, and for an unrecognized or absent hint falls back to
the length thresholds; it agrees with the claim's rule table
(`difficulty_label_claimed`, reading the claim's length ranges as the
partition below-5 / 5-to-10 right-open / 10-and-above) on every hint string
without surrounding whitespace — in particular "demanding_mountain_hiking" at
2 km is hard and an empty hint at 2 km is easy. -/
theorem difficulty_hint_precedence :
    ∀ (sac : String) (d : ℝ), pyStrip sac = sac →
      difficulty_label sac d = difficulty_label_claimed sac d := by
  intro sac d hs
  unfold difficulty_label difficulty_label_claimed _difficulty_from_sac claimedTier
  rw [hs]
  by_cases h1 : sac = "hiking"
  · simp [h1]
  · by_cases h2 : sac = "mountain_hiking"
    · simp [h1, h2]
    · by_cases h3 : sac ∈ ["demanding_mountain_hiking", "alpine_hiking",
        "demanding_alpine_hiking", "difficult_alpine_hiking"]
      · simp [h1, h2, h3]
      · simp [h1, h2, h3]

/-- C5, witness: the flagship example — hint "demanding_mountain_hiking" at
2 km classifies per the claim's table (hard, hint overriding length). -/
theorem difficulty_hint_precedence_witness :
    pyStrip "demanding_mountain_hiking" = "demanding_mountain_hiking" ∧
    difficulty_label "demanding_mountain_hiking" 2 =
      difficulty_label_claimed "demanding_mountain_hiking" 2 :=
  ⟨by decide, difficulty_hint_precedence "demanding_mountain_hiking" 2 (by decide)⟩

/-! ### Matcher symmetry -/

lemma recordNearest_swap (s e : ℝ × ℝ) (r : OfficialRecord) :
    recordNearest e s r = recordNearest s e r := by
  unfold recordNearest
  rw [min_comm]
  congr 1 <;> ring

lemma scanGo_swap (s e : ℝ × ℝ) :
    ∀ (rs : List OfficialRecord) (st : ℝ × Option String),
      scanGo e s rs st = scanGo s e rs st := by
  intro rs
  induction rs with
  | nil => intro st; rfl
  | cons r rs ih =>
    intro st
    simp only [scanGo, recordNearest_swap]
    split_ifs <;> exact ih _

/-- C7.  Swapping a candidate's start and end coordinates (reversed traversal
direction) leaves the entire result of `match_official_by_endpoints` —
matched flag, trust score, nearest distance, and nearest record name —
unchanged, because each record's distance is the minimum of the forward and
the reversed endpoint pairing. -/
theorem match_symmetric_under_reversal :
    ∀ (s e : ℝ × ℝ) (idx : List OfficialRecord) (th : ℝ),
      match_official_by_endpoints e s idx th = match_official_by_endpoints s e idx th := by
  intro s e idx th
  unfold match_official_by_endpoints
  rw [scanGo_swap]

/-- C8.  Graceful degradation: a missing authoritative directory loads as the
empty index rather than raising; matching any candidate against an empty
index reports matched=false, trust 0, no nearest distance and no name; and a
course built with no index (the `official_index=None` default) has its final
score equal to its structural score. -/
theorem graceful_degradation_empty_index :
    (∀ (files : List GpxFile) (bbox : Option (ℝ × ℝ × ℝ × ℝ)) (max_files : ℕ),
       load_official_gpx_index ⟨false, files⟩ bbox max_files = []) ∧
    (∀ (s e : ℝ × ℝ) (th : ℝ),
       match_official_by_endpoints s e [] th =
         { matched := false, trust_score := 0, nearest_m := none, official_name := none }) ∧
    (∀ (rel : Relation) (th : ℝ),
       (relation_to_course rel none th).map Course.score =
         (relation_to_course rel none th).map Course.score_osm) := by
  refine ⟨fun files bbox max_files => rfl, fun s e th => rfl, fun rel th => ?_⟩
  simp only [relation_to_course]
  split_ifs <;> simp only [Option.map_none', Option.map_some']
  have htrust : ∀ a b : ℝ × ℝ,
      (match_official_by_endpoints a b ((none : Option (List OfficialRecord)).getD []) th).trust_score = 0 :=
    fun a b => rfl
  rw [htrust, add_zero, pyRound_idem]

/-! ### Matcher scan-loop analysis -/

lemma haversine_m_lt (lat1 lon1 lat2 lon2 : ℝ) :
    haversine_m lat1 lon1 lat2 lon2 < 2.1e7 := by
  unfold haversine_m
  have h1 := Real.arcsin_le_pi_div_two
    (Real.sqrt (Real.sin (((lat2 - lat1) * (Real.pi / 180)) / 2) ^ 2 +
      Real.cos (lat1 * (Real.pi / 180)) * Real.cos (lat2 * (Real.pi / 180)) *
        Real.sin (((lon2 - lon1) * (Real.pi / 180)) / 2) ^ 2))
  have h2 : Real.pi < 3.15 := Real.pi_lt_d2
  norm_num
  linarith

lemma recordNearest_lt (s e : ℝ × ℝ) (r : OfficialRecord) :
    recordNearest s e r < 1e18 := by
  have h1 := haversine_m_lt s.1 s.2 r.start_lat r.start_lon
  have h2 := haversine_m_lt e.1 e.2 r.end_lat r.end_lon
  unfold recordNearest
  refine lt_of_le_of_lt (min_le_left _ _) ?_
  norm_num
  linarith

lemma scanGo_fst_le (s e : ℝ × ℝ) :
    ∀ (rs : List OfficialRecord) (b : ℝ) (nm : Option String),
      (scanGo s e rs (b, nm)).1 ≤ b := by
  intro rs
  induction rs with
  | nil => intro b nm; exact le_refl b
  | cons r rs ih =>
    intro b nm
    simp only [scanGo]
    split_ifs with h
    · exact le_of_lt (lt_of_le_of_lt (ih _ _) h)
    · exact ih _ _

lemma scanGo_fst_le_record (s e : ℝ × ℝ) :
    ∀ (rs : List OfficialRecord) (b : ℝ) (nm : Option String) (r : OfficialRecord),
      r ∈ rs → (scanGo s e rs (b, nm)).1 ≤ recordNearest s e r := by
  intro rs
  induction rs with
  | nil => intro b nm r h; exact absurd h (List.not_mem_nil r)
  | cons r0 rs ih =>
    intro b nm r hr
    rcases List.mem_cons.mp hr with h | h
    · subst h
      simp only [scanGo]
      split_ifs with hlt
      · exact scanGo_fst_le s e rs _ _
      · exact le_trans (scanGo_fst_le s e rs _ _) (le_of_not_lt hlt)
    · simp only [scanGo]
      split_ifs with hlt
      · exact ih _ _ r h
      · exact ih _ _ r h

lemma scanGo_cases (s e : ℝ × ℝ) :
    ∀ (rs : List OfficialRecord) (b : ℝ) (nm : Option String),
      scanGo s e rs (b, nm) = (b, nm) ∨
      ∃ r ∈ rs, scanGo s e rs (b, nm) = (recordNearest s e r, some r.name) := by
  intro rs
  induction rs with
  | nil => intro b nm; exact Or.inl rfl
  | cons r0 rs ih =>
    intro b nm
    simp only [scanGo]
    split_ifs with hlt
    · rcases ih (recordNearest s e r0) (some r0.name) with h | ⟨r, hr, h⟩
      · exact Or.inr ⟨r0, List.mem_cons_self r0 rs, h⟩
      · exact Or.inr ⟨r, List.mem_cons_of_mem r0 hr, h⟩
    · rcases ih b nm with h | ⟨r, hr, h⟩
      · exact Or.inl h
      · exact Or.inr ⟨r, List.mem_cons_of_mem r0 hr, h⟩

lemma bestScan_achieved (s e : ℝ × ℝ) (r0 : OfficialRecord) (rs : List OfficialRecord) :
    ∃ r ∈ r0 :: rs,
      scanGo s e (r0 :: rs) ((1e18 : ℝ), none) = (recordNearest s e r, some r.name) := by
  have h0 : recordNearest s e r0 < 1e18 := recordNearest_lt s e r0
  simp only [scanGo, if_pos h0]
  rcases scanGo_cases s e rs (recordNearest s e r0) (some r0.name) with h | ⟨r, hr, h⟩
  · exact ⟨r0, List.mem_cons_self r0 rs, h⟩
  · exact ⟨r, List.mem_cons_of_mem r0 hr, h⟩

lemma match_eq_of_le (s e : ℝ × ℝ) (r0 : OfficialRecord) (rs : List OfficialRecord)
    (th : ℝ) (hle : (scanGo s e (r0 :: rs) ((1e18 : ℝ), none)).1 ≤ th) :
    match_official_by_endpoints s e (r0 :: rs) th =
      { matched := true,
        trust_score :=
          pyRound (5 + (th - (scanGo s e (r0 :: rs) ((1e18 : ℝ), none)).1) / th * 25) 2,
        nearest_m := some (pyRound ((scanGo s e (r0 :: rs) ((1e18 : ℝ), none)).1) 1),
        official_name := (scanGo s e (r0 :: rs) ((1e18 : ℝ), none)).2 } := by
  unfold match_official_by_endpoints
  simp only [List.isEmpty_cons, Bool.false_eq_true, if_false, if_pos hle]

lemma match_eq_of_gt (s e : ℝ × ℝ) (r0 : OfficialRecord) (rs : List OfficialRecord)
    (th : ℝ) (hgt : th < (scanGo s e (r0 :: rs) ((1e18 : ℝ), none)).1) :
    match_official_by_endpoints s e (r0 :: rs) th =
      { matched := false, trust_score := 0,
        nearest_m := some (pyRound ((scanGo s e (r0 :: rs) ((1e18 : ℝ), none)).1) 1),
        official_name := (scanGo s e (r0 :: rs) ((1e18 : ℝ), none)).2 } := by
  unfold match_official_by_endpoints
  simp only [List.isEmpty_cons, Bool.false_eq_true, if_false,
    if_neg (not_le_of_lt hgt)]

/-- C3.  For a non-empty authoritative index and threshold `th`: the matched
flag is true exactly when the scan loop's global minimum endpoint distance is
at most `th` (conjunct 1; conjuncts 2 and 3 certify that this quantity really
is the minimum over the per-record distances and is attained); at exactly
`th` the candidate is matched with the trust formula's minimum value 5
(conjunct 4); beyond `th` the candidate is unmatched with trust score exactly
0, while the nearest distance (rounded to 1 decimal) and the nearest record's
name are still reported (conjunct 5). -/
theorem match_threshold_boundary (idx : List OfficialRecord) (hne : idx ≠ [])
    (s e : ℝ × ℝ) (th : ℝ) :
    ((match_official_by_endpoints s e idx th).matched = true ↔
      bestNearestDist s e idx ≤ th) ∧
    (∀ r ∈ idx, bestNearestDist s e idx ≤ recordNearest s e r) ∧
    (∃ r ∈ idx, bestNearestDist s e idx = recordNearest s e r) ∧
    (bestNearestDist s e idx = th →
      (match_official_by_endpoints s e idx th).matched = true ∧
      (match_official_by_endpoints s e idx th).trust_score = 5) ∧
    (th < bestNearestDist s e idx →
      (match_official_by_endpoints s e idx th).matched = false ∧
      (match_official_by_endpoints s e idx th).trust_score = 0 ∧
      (match_official_by_endpoints s e idx th).nearest_m =
        some (pyRound (bestNearestDist s e idx) 1) ∧
      ∃ r ∈ idx, (match_official_by_endpoints s e idx th).official_name = some r.name ∧
        recordNearest s e r = bestNearestDist s e idx) := by
  obtain ⟨r0, rs, rfl⟩ : ∃ r0 rs, idx = r0 :: rs := by
    cases idx with
    | nil => exact absurd rfl hne
    | cons a l => exact ⟨a, l, rfl⟩
  obtain ⟨rB, hrB, hscan⟩ := bestScan_achieved s e r0 rs
  have hbestdef : bestNearestDist s e (r0 :: rs) =
      (scanGo s e (r0 :: rs) ((1e18 : ℝ), none)).1 := rfl
  refine ⟨?_, ?_, ?_, ?_, ?_⟩
  · by_cases hle : (scanGo s e (r0 :: rs) ((1e18 : ℝ), none)).1 ≤ th
    · rw [match_eq_of_le s e r0 rs th hle, hbestdef]
      simpa using hle
    · rw [match_eq_of_gt s e r0 rs th (lt_of_not_le hle), hbestdef]
      simpa using hle
  · intro r hr
    rw [hbestdef]
    exact scanGo_fst_le_record s e (r0 :: rs) _ _ r hr
  · exact ⟨rB, hrB, by rw [hbestdef, hscan]⟩
  · intro heq
    have hle : (scanGo s e (r0 :: rs) ((1e18 : ℝ), none)).1 ≤ th :=
      le_of_eq (hbestdef ▸ heq)
    rw [match_eq_of_le s e r0 rs th hle]
    refine ⟨rfl, ?_⟩
    show pyRound (5 + (th - (scanGo s e (r0 :: rs) ((1e18 : ℝ), none)).1) / th * 25) 2 = 5
    rw [show (scanGo s e (r0 :: rs) ((1e18 : ℝ), none)).1 = th from hbestdef ▸ heq]
    rw [sub_self, zero_div, zero_mul, add_zero, pyRound_five]
  · intro hgt
    rw [hbestdef] at hgt
    rw [match_eq_of_gt s e r0 rs th hgt, hbestdef]
    exact ⟨rfl, rfl, rfl, rB, hrB, by rw [hscan], hscan ▸ rfl⟩

/-- C3, witness at a singleton index and the default threshold 250 m:
instantiates the matched-iff-within-threshold equivalence. -/
theorem match_threshold_boundary_witness :
    [recA] ≠ ([] : List OfficialRecord) ∧
    ((match_official_by_endpoints (37.6, 127.0) (37.65, 127.05) [recA] 250).matched = true ↔
      bestNearestDist (37.6, 127.0) (37.65, 127.05) [recA] ≤ 250) :=
  ⟨by simp,
   (match_threshold_boundary [recA] (by simp) (37.6, 127.0) (37.65, 127.05) 250).1⟩

/-- C6.  `relation_to_course` returns `None` exactly when the relation has no
usable name tag (`_safe_get` of the name is empty, covering a missing tag and
a blank value), or fewer than 2 vertices accumulate during stitching, or the
2-decimal-rounded length falls below 1.0 km or above 35.0 km.  Since the
guards are strict (`< 1.0`, `> 35.0`), the boundary lengths 1.00 km and
35.0 km themselves yield a course while 0.99 km yields `None`. -/
theorem relation_to_course_rejects_iff :
    ∀ (rel : Relation) (official_index : Option (List OfficialRecord)) (th : ℝ),
      relation_to_course rel official_index th = none ↔
        (_safe_get (rel.tags.getD emptyTags).name = "" ∨
         (stitchedLatlon (rel.members.getD [])).length < 2 ∨
         pyRound (polyline_length_km (stitchedLatlon (rel.members.getD []))) 2 < 1 ∨
         35 < pyRound (polyline_length_km (stitchedLatlon (rel.members.getD []))) 2) := by
  intro rel official_index th
  simp only [relation_to_course]
  split_ifs with h1 h2 h3
  · exact iff_of_true rfl (Or.inl h1)
  · exact iff_of_true rfl (Or.inr (Or.inl h2))
  · exact iff_of_true rfl (Or.inr (Or.inr h3))
  · refine iff_of_false (by simp) ?_
    rintro (h | h | h | h)
    · exact h1 h
    · exact h2 h
    · exact h3 (Or.inl h)
    · exact h3 (Or.inr h)

/-! ### Sort and deduplication analysis -/

lemma keyLe_refl (a : ℝ × ℝ) : keyLe a a :=
  Or.inr ⟨rfl, le_refl _⟩

lemma keyLe_total (a b : ℝ × ℝ) : keyLe a b ∨ keyLe b a := by
  unfold keyLe
  rcases lt_trichotomy a.1 b.1 with h | h | h
  · exact Or.inl (Or.inl h)
  · rcases le_total a.2 b.2 with h2 | h2
    · exact Or.inl (Or.inr ⟨h, h2⟩)
    · exact Or.inr (Or.inr ⟨h.symm, h2⟩)
  · exact Or.inr (Or.inl h)

lemma keyLe_trans {a b c : ℝ × ℝ} (hab : keyLe a b) (hbc : keyLe b c) : keyLe a c := by
  unfold keyLe at *
  rcases hab with h | ⟨h, h2⟩ <;> rcases hbc with g | ⟨g, g2⟩
  · exact Or.inl (lt_trans h g)
  · exact Or.inl (g ▸ h)
  · exact Or.inl (h ▸ g)
  · exact Or.inr ⟨h.trans g, le_trans h2 g2⟩

lemma keyLe_of_not_keyLe {a b : ℝ × ℝ} (h : ¬ keyLe a b) : keyLe b a :=
  (keyLe_total a b).resolve_left h

lemma mem_insertDesc {x c : Course} : ∀ {l : List Course},
    x ∈ insertDesc c l ↔ x = c ∨ x ∈ l := by
  intro l
  induction l with
  | nil => simp [insertDesc]
  | cons d ds ih =>
    simp only [insertDesc]
    split_ifs with h
    · simp [List.mem_cons]
    · simp only [List.mem_cons, ih]
      tauto

lemma pairwise_insertDesc (c : Course) :
    ∀ {l : List Course}, l.Pairwise courseGe → (insertDesc c l).Pairwise courseGe := by
  intro l
  induction l with
  | nil => intro _; simp [insertDesc, List.Pairwise]
  | cons d ds ih =>
    intro hp
    rcases List.pairwise_cons.mp hp with ⟨hd, hds⟩
    simp only [insertDesc]
    split_ifs with h
    · refine List.pairwise_cons.mpr ⟨?_, hp⟩
      intro x hx
      rcases List.mem_cons.mp hx with rfl | hx
      · exact h
      · exact keyLe_trans (hd x hx) h
    · refine List.pairwise_cons.mpr ⟨?_, ih hds⟩
      intro x hx
      rcases mem_insertDesc.mp hx with rfl | hx
      · exact keyLe_of_not_keyLe h
      · exact hd x hx

lemma sortDesc_pairwise : ∀ l : List Course, (sortDesc l).Pairwise courseGe := by
  intro l
  induction l with
  | nil => simp [sortDesc]
  | cons c cs ih => exact pairwise_insertDesc c ih

lemma insertDesc_perm (c : Course) :
    ∀ l : List Course, List.Perm (insertDesc c l) (c :: l) := by
  intro l
  induction l with
  | nil => simp [insertDesc]
  | cons d ds ih =>
    simp only [insertDesc]
    split_ifs with h
    · exact List.Perm.refl _
    · exact ((ih.cons d).trans (List.Perm.swap c d ds))

lemma sortDesc_perm : ∀ l : List Course, List.Perm (sortDesc l) l := by
  intro l
  induction l with
  | nil => exact List.Perm.refl _
  | cons c cs ih => exact (insertDesc_perm c (sortDesc cs)).trans (ih.cons c)

lemma dedupGo_sublist : ∀ (l : List Course) (seen : List String),
    List.Sublist (dedupGo seen l) l := by
  intro l
  induction l with
  | nil => intro seen; simp [dedupGo]
  | cons c cs ih =>
    intro seen
    simp only [dedupGo]
    split_ifs with h
    · exact List.Sublist.cons c (ih seen)
    · exact List.Sublist.cons₂ c (ih (c.name :: seen))


lemma find?_eq_head?_filter {α : Type} (p : α → Bool) :
    ∀ l : List α, l.find? p = (l.filter p).head? := by
  intro l
  induction l with
  | nil => rfl
  | cons a l ih =>
    cases hb : p a
    · rw [List.find?_cons_of_neg _ (by simp [hb]), List.filter_cons,
        if_neg (by simp [hb]), ih]
    · rw [List.find?_cons_of_pos _ hb, List.filter_cons, if_pos hb]
      rfl

lemma dedupGo_filter_mem (n : String) :
    ∀ (l : List Course) (seen : List String), n ∈ seen →
      (dedupGo seen l).filter (fun c => c.name == n) = [] := by
  intro l
  induction l with
  | nil => intro seen _; rfl
  | cons c cs ih =>
    intro seen hn
    simp only [dedupGo]
    split_ifs with h
    · exact ih seen hn
    · have hcn : c.name ≠ n := fun he => h (he ▸ hn)
      rw [List.filter_cons, if_neg (by simp [hcn])]
      exact ih (c.name :: seen) (List.mem_cons_of_mem _ hn)

lemma dedupGo_filter_not_mem (n : String) :
    ∀ (l : List Course) (seen : List String), n ∉ seen →
      (dedupGo seen l).filter (fun c => c.name == n) =
        (l.find? (fun c => c.name == n)).toList := by
  intro l
  induction l with
  | nil => intro seen _; rfl
  | cons c cs ih =>
    intro seen hn
    simp only [dedupGo]
    split_ifs with h
    · have hcn : c.name ≠ n := fun he => hn (he ▸ h)
      rw [List.find?_cons_of_neg _ (by simp [hcn])]
      exact ih seen hn
    · by_cases hcn : c.name = n
      · rw [List.find?_cons_of_pos _ (by simp [hcn]), List.filter_cons,
          if_pos (by simp [hcn]),
          dedupGo_filter_mem n cs (c.name :: seen) (hcn ▸ List.mem_cons_self c.name seen)]
        rfl
      · rw [List.find?_cons_of_neg _ (by simp [hcn]), List.filter_cons,
          if_neg (by simp [hcn])]
        refine ih (c.name :: seen) ?_
        intro hmem
        rcases List.mem_cons.mp hmem with heq | hmem2
        · exact hcn heq.symm
        · exact hn hmem2

lemma perm_pair {α : Type} {l : List α} {a b : α}
    (h : List.Perm l [a, b]) : l = [a, b] ∨ l = [b, a] := by
  have hlen : l.length = 2 := by simpa using h.length_eq
  obtain ⟨x, y, rfl⟩ : ∃ x y, l = [x, y] := by
    match l, hlen with
    | [x, y], _ => exact ⟨x, y, rfl⟩
  have hx : x = a ∨ x = b := List.mem_pair.mp (h.subset (by simp))
  have hy : y = a ∨ y = b := List.mem_pair.mp (h.subset (by simp))
  rcases hx with hxa | hxb
  · subst hxa
    have h2 : List.Perm [y] [b] := h.cons_inv
    have hyb : y = b := List.mem_singleton.mp (h2.subset (by simp))
    exact Or.inl (by rw [hyb])
  · subst hxb
    rcases hy with hya | hyb
    · subst hya
      exact Or.inr rfl
    · subst hyb
      have ha : a = y := by
        have := h.symm.subset (show a ∈ [a, y] by simp)
        simpa using this
      exact Or.inl (by rw [ha])

/-- C4.  Given the documented pre-sort (descending by final score then
length), the single left-to-right deduplication pass keeps exactly the
higher-scoring of two courses sharing a name, regardless of the order in
which they arrived: if the candidate list's courses named `n` are exactly
`chigh` and `clow` (in either order) with `clow.score < chigh.score`, then
after `sortDesc` and `dedupByName` — the exact pipeline tail of
`build_courses` (src/osm_backend.py:418-424) — the output's courses named `n`
are exactly `[chigh]`. -/
theorem dedup_keeps_highest_scoring (n : String) (chigh clow : Course)
    (cs : List Course)
    (hfil : cs.filter (fun c => c.name == n) = [chigh, clow] ∨
            cs.filter (fun c => c.name == n) = [clow, chigh])
    (hsc : clow.score < chigh.score) :
    (dedupByName (sortDesc cs)).filter (fun c => c.name == n) = [chigh] := by
  have hperm : List.Perm ((sortDesc cs).filter (fun c => c.name == n))
      (cs.filter (fun c => c.name == n)) := (sortDesc_perm cs).filter _
  have hperm2 : List.Perm ((sortDesc cs).filter (fun c => c.name == n))
      [chigh, clow] := by
    rcases hfil with h | h
    · exact h ▸ hperm
    · exact (h ▸ hperm).trans (List.Perm.swap chigh clow [])
  have hpw : ((sortDesc cs).filter (fun c => c.name == n)).Pairwise courseGe :=
    (sortDesc_pairwise cs).sublist (List.filter_sublist _)
  have hfirst : (sortDesc cs).filter (fun c => c.name == n) = [chigh, clow] := by
    rcases perm_pair hperm2 with h | h
    · exact h
    · exfalso
      rw [h] at hpw
      have hge : courseGe clow chigh := (List.pairwise_cons.mp hpw).1 chigh (by simp)
      unfold courseGe keyLe courseKey at hge
      rcases hge with hlt | ⟨heq, _⟩
      · exact absurd hlt (lt_asymm hsc)
      · exact absurd heq (ne_of_gt hsc)
  unfold dedupByName
  rw [dedupGo_filter_not_mem n (sortDesc cs) [] (List.not_mem_nil n),
    find?_eq_head?_filter, hfirst]
  rfl

/-- C4, witness: two concrete courses named "북한산 둘레길" with scores 1 and
2, arriving lower-scoring first; the pipeline tail keeps exactly the
higher-scoring one. -/
theorem dedup_keeps_highest_scoring_witness :
    (dedupByName (sortDesc [c4low, c4high])).filter
      (fun c => c.name == "북한산 둘레길") = [c4high] :=
  dedup_keeps_highest_scoring "북한산 둘레길" c4high c4low [c4low, c4high]
    (Or.inr rfl)
    (by simp only [c4low, c4high]; norm_num)

/-- C9.  The list returned by `build_courses` is itself sorted in
non-increasing `(final score, length)` order: the deduplication pass
preserves the pre-sorted order (conjunct 1), and its first element — when one
exists — is the head of the fully sorted candidate list (conjunct 2), which
is a permutation of all assembled courses (conjunct 3) arranged pairwise
non-increasingly (conjunct 4), so the first output element is always a
globally best-scoring course. -/
theorem build_courses_output_sorted :
    ∀ (rels : List Relation) (official_index : Option (List OfficialRecord)) (th : ℝ),
      (build_courses rels official_index th).Pairwise courseGe ∧
      (build_courses rels official_index th).take 1 =
        (sortDesc (assembleCourses rels official_index th)).take 1 ∧
      List.Perm (sortDesc (assembleCourses rels official_index th))
        (assembleCourses rels official_index th) ∧
      (sortDesc (assembleCourses rels official_index th)).Pairwise courseGe := by
  intro rels official_index th
  refine ⟨?_, ?_, sortDesc_perm _, sortDesc_pairwise _⟩
  · exact (sortDesc_pairwise _).sublist
      (dedupGo_sublist (sortDesc (assembleCourses rels official_index th)) [])
  · unfold build_courses dedupByName
    cases h : sortDesc (assembleCourses rels official_index th) with
    | nil => rfl
    | cons c cs =>
      simp [dedupGo, List.not_mem_nil]

/-! ### GPX index loader analysis -/

lemma loadGo_stop (bbox : Option (ℝ × ℝ × ℝ × ℝ)) (maxf : ℕ) (l : List GpxFile)
    (picked : ℕ) (h : maxf ≤ picked) : loadGo bbox maxf l picked = [] := by
  cases l with
  | nil => rfl
  | cons f fs => simp [loadGo, h]

lemma loadGo_skip_bad (bbox : Option (ℝ × ℝ × ℝ × ℝ)) (maxf : ℕ) (bad : GpxFile)
    (hbad : _parse_gpx_bounds_and_endpoints bad = none) :
    ∀ (fs₁ fs₂ : List GpxFile) (picked : ℕ),
      loadGo bbox maxf (fs₁ ++ bad :: fs₂) picked =
        loadGo bbox maxf (fs₁ ++ fs₂) picked := by
  intro fs₁
  induction fs₁ with
  | nil =>
    intro fs₂ picked
    simp only [List.nil_append, loadGo]
    by_cases h : maxf ≤ picked
    · rw [if_pos h, loadGo_stop bbox maxf fs₂ picked h]
    · rw [if_neg h, hbad]
  | cons f fs₁ ih =>
    intro fs₂ picked
    simp only [List.cons_append, loadGo]
    by_cases h : maxf ≤ picked
    · rw [if_pos h, if_pos h]
    · rw [if_neg h, if_neg h]
      cases hpf : _parse_gpx_bounds_and_endpoints f with
      | none => exact ih fs₂ picked
      | some info =>
        cases bbox with
        | none => exact congrArg (info :: ·) (ih fs₂ (picked + 1))
        | some b =>
          dsimp only
          split_ifs with hint
          · exact congrArg (info :: ·) (ih fs₂ (picked + 1))
          · exact ih fs₂ picked

/-- C2, counterexample.  `gpxNoBounds` parses and has two track points with
numeric coordinates but carries no embedded `<metadata>` bounds; the claim
asserts such a file still yields a record (its bbox computed from track-point
extremes), yet `_parse_gpx_bounds_and_endpoints` returns `None` for it and the
directory scan skips it — while still indexing the following well-formed file
`gpxGood`, whose record carries the metadata bounds. -/
theorem gpx_no_bounds_skipped_cx :
    _parse_gpx_bounds_and_endpoints gpxNoBounds = none ∧
    load_official_gpx_index ⟨true, [gpxNoBounds, gpxGood]⟩ none 1500 =
      [{ name := "good", start_lat := 37.5, start_lon := 127.0, end_lat := 37.6,
         end_lon := 127.1, bbox := (37.4, 126.9, 37.7, 127.2),
         path := "data/good.gpx" }] := by
  constructor <;> rfl

/-- C2, amended.  `load_official_gpx_index` produces a record for a GPX file
only when the file parses AND carries embedded `<metadata><bounds>` with four
numeric attributes AND has at least 2 track points with numeric first/last
coordinates; the bounding box is never computed from track-point extremes, so
a file lacking embedded metadata bounds is skipped (conjuncts 1-4: each
missing ingredient forces a skip; conjunct 6: a fully well-formed file does
yield a record).  A skipped file never aborts the scan: deleting an
unparseable file from the walk leaves the rest of the index unchanged
(conjunct 5). -/
theorem gpx_index_requires_metadata_bounds :
    (∀ f : GpxFile, f.doc = none → _parse_gpx_bounds_and_endpoints f = none) ∧
    (∀ (f : GpxFile) (root : GpxDoc), f.doc = some root → root.metadata = none →
      _parse_gpx_bounds_and_endpoints f = none) ∧
    (∀ (f : GpxFile) (root : GpxDoc) (meta : GpxMetadata), f.doc = some root →
      root.metadata = some meta → meta.bounds = none →
      _parse_gpx_bounds_and_endpoints f = none) ∧
    (∀ (f : GpxFile) (root : GpxDoc) (trk : GpxTrk) (seg : GpxTrkseg),
      f.doc = some root → root.trk = some trk → trk.trkseg = some seg →
      seg.trkpts.length < 2 → _parse_gpx_bounds_and_endpoints f = none) ∧
    (∀ (fs₁ fs₂ : List GpxFile) (bad : GpxFile) (bbox : Option (ℝ × ℝ × ℝ × ℝ))
      (max_files : ℕ), _parse_gpx_bounds_and_endpoints bad = none →
      load_official_gpx_index ⟨true, fs₁ ++ bad :: fs₂⟩ bbox max_files =
        load_official_gpx_index ⟨true, fs₁ ++ fs₂⟩ bbox max_files) ∧
    (∀ (f : GpxFile) (root : GpxDoc) (meta : GpxMetadata) (b : GpxBounds)
      (trk : GpxTrk) (seg : GpxTrkseg), f.doc = some root →
      root.metadata = some meta → meta.bounds = some b →
      b.minlat.isSome → b.minlon.isSome → b.maxlat.isSome → b.maxlon.isSome →
      root.trk = some trk → trk.trkseg = some seg → 2 ≤ seg.trkpts.length →
      (∀ p, seg.trkpts.head? = some p → p.lat.isSome ∧ p.lon.isSome) →
      (∀ p, seg.trkpts.getLast? = some p → p.lat.isSome ∧ p.lon.isSome) →
      (_parse_gpx_bounds_and_endpoints f).isSome = true) := by
  refine ⟨?_, ?_, ?_, ?_, ?_, ?_⟩
  · intro f h
    simp [_parse_gpx_bounds_and_endpoints, h]
  · intro f root hdoc hmeta
    simp [_parse_gpx_bounds_and_endpoints, hdoc, hmeta]
  · intro f root meta hdoc hmeta hb
    simp [_parse_gpx_bounds_and_endpoints, hdoc, hmeta, hb]
  · intro f root trk seg hdoc htrk hseg hlen
    rcases hm : root.metadata with _ | meta
    · simp [_parse_gpx_bounds_and_endpoints, hdoc, hm]
    · rcases hb : meta.bounds with _ | b
      · simp [_parse_gpx_bounds_and_endpoints, hdoc, hm, hb]
      · rcases hla : b.minlat with _ | vla
        · simp [_parse_gpx_bounds_and_endpoints, hdoc, hm, hb, hla]
        · rcases hlo : b.minlon with _ | vlo
          · simp [_parse_gpx_bounds_and_endpoints, hdoc, hm, hb, hla, hlo]
          · rcases hxa : b.maxlat with _ | vxa
            · simp [_parse_gpx_bounds_and_endpoints, hdoc, hm, hb, hla, hlo, hxa]
            · rcases hxo : b.maxlon with _ | vxo
              · simp [_parse_gpx_bounds_and_endpoints, hdoc, hm, hb, hla, hlo,
                  hxa, hxo]
              · simp [_parse_gpx_bounds_and_endpoints, hdoc, hm, hb, hla, hlo,
                  hxa, hxo, htrk, hseg, hlen]
  · intro fs₁ fs₂ bad bbox max_files hbad
    exact loadGo_skip_bad bbox max_files bad hbad fs₁ fs₂ 0
  · intro f root meta b trk seg hdoc hmeta hb hla hlo hxa hxo htrk hseg hlen hfirst hlast
    obtain ⟨vla, hla⟩ := Option.isSome_iff_exists.mp hla
    obtain ⟨vlo, hlo⟩ := Option.isSome_iff_exists.mp hlo
    obtain ⟨vxa, hxa⟩ := Option.isSome_iff_exists.mp hxa
    obtain ⟨vxo, hxo⟩ := Option.isSome_iff_exists.mp hxo
    have hne : seg.trkpts ≠ [] := by
      intro h
      rw [h] at hlen
      simp at hlen
    cases hh : seg.trkpts.head? with
    | none => exact absurd (List.head?_eq_none_iff.mp hh) hne
    | some p0 =>
      cases hl : seg.trkpts.getLast? with
      | none => exact absurd (List.getLast?_eq_none_iff.mp hl) hne
      | some pL =>
        obtain ⟨h0lat, h0lon⟩ := hfirst p0 hh
        obtain ⟨hLlat, hLlon⟩ := hlast pL hl
        obtain ⟨v0a, h0a⟩ := Option.isSome_iff_exists.mp h0lat
        obtain ⟨v0o, h0o⟩ := Option.isSome_iff_exists.mp h0lon
        obtain ⟨vLa, hLa⟩ := Option.isSome_iff_exists.mp hLlat
        obtain ⟨vLo, hLo⟩ := Option.isSome_iff_exists.mp hLlon
        simp [_parse_gpx_bounds_and_endpoints, hdoc, hmeta, hb, hla, hlo, hxa,
          hxo, htrk, hseg, Nat.not_lt.mpr hlen, hh, hl, h0a, h0o, hLa, hLo]

/-- C2, witness: dropping the boundless file from the walk leaves the loaded
index unchanged — the skip does not abort the scan of `gpxGood`. -/
theorem gpx_index_requires_metadata_bounds_witness :
    load_official_gpx_index ⟨true, [gpxNoBounds, gpxGood]⟩ none 1500 =
      load_official_gpx_index ⟨true, [gpxGood]⟩ none 1500 :=
  gpx_index_requires_metadata_bounds.2.2.2.2.1 [] [gpxGood] gpxNoBounds none 1500 rfl
